import Mathlib

/-!
Shallow embedding of the root-of-trust audit/reconcile engine of
`cmd/rot.go` (kfutil). Pure data flow is translated directly; the
Keyfactor API client, the clock and file I/O are passed in as explicit
parameters (lookup functions, a `now` string, and row lists standing for
the CSV records written/read).
-/

namespace Kfutil

/-- One certificate entry inside an `api.CertStoreInventory` item
(only the fields read by `isRootStore`). -/
structure InvCert where
  IssuedDN : String
  IssuerDN : String
deriving DecidableEq, Repr

/-- One `api.CertStoreInventory` item: its certificate entries, its
parameter map, and the per-item thumbprint/serial/id collections that the
store-reading loops flatten into lookup sets. Go maps keyed by
string/int are modelled by their key lists, since the code only tests key
presence. -/
structure CertStoreInventory where
  Certificates : List InvCert
  Parameters : List (String × String)
  Thumbprints : List String
  Serials : List String
  Ids : List Int
deriving DecidableEq, Repr

/-- Go map read `m[k]` over a `map[string]string`: the value if the key is
present, the zero value `""` otherwise. -/
def paramLookup (ps : List (String × String)) (k : String) : String :=
  match ps.find? (fun p => p.1 == k) with
  | some p => p.2
  | none => ""

/-- `StoreCSVEntry` of `rot.go` (the `Serials`/`Ids` index sets are kept
as key lists like `Thumbprints`; the Go field `Type` is written `type_`
because `Type` is reserved in Lean). -/
structure StoreCSVEntry where
  ID : String
  type_ : String
  Machine : String
  Path : String
  Thumbprints : List String
  Serials : List String
  Ids : List Int
deriving DecidableEq, Repr

/-- `ROTAction` of `rot.go`. -/
structure ROTAction where
  StoreID : String
  StoreType : String
  StorePath : String
  Thumbprint : String
  CertID : Int
  AddCert : Bool
  RemoveCert : Bool
deriving DecidableEq, Repr

/-- The result of `kfClient.GetCertificateContext` restricted to the
fields `generateAuditReport` reads. -/
structure CertCtx where
  Id : Int
  IssuedDN : String
  IssuerDN : String
deriving DecidableEq, Repr

/-- The fixed audit ledger header `AuditHeader` of `rot.go`. -/
def AuditHeader : List String :=
  ["Thumbprint", "CertID", "SubjectName", "Issuer", "StoreID", "StoreType",
   "Machine", "Path", "AddCert", "RemoveCert", "Deployed", "AuditDate"]

/-- The fixed stores template header `StoreHeader` of `rot.go`. -/
def StoreHeader : List String :=
  ["StoreID", "StoreType", "StoreMachine", "StorePath", "ContainerId",
   "ContainerName", "LastQueriedDate"]

/-! ## Store Classifier: `isRootStore` -/

/-- The `certCount` accumulation of `isRootStore`: for each inventory
item, `certCount += len(inv.Certificates)`. -/
def certCountOf (invs : List CertStoreInventory) : Nat :=
  invs.foldl (fun acc inv => acc + inv.Certificates.length) 0

/-- The `leafCount` accumulation of `isRootStore`: inside the loop over
`inv.Certificates`, `leafCount++` whenever `cert.IssuedDN != cert.IssuerDN`. -/
def leafCountOf (invs : List CertStoreInventory) : Nat :=
  invs.foldl
    (fun acc inv =>
      inv.Certificates.foldl
        (fun l cert => if cert.IssuedDN != cert.IssuerDN then l + 1 else l) acc)
    0

/-- The `keyCount` accumulation of `isRootStore`: the increment sits
inside the loop over `inv.Certificates` in the source, guarded by
`inv.Parameters["PrivateKeyEntry"] == "Yes"`, so a flagged item is counted
once per certificate entry it holds. -/
def keyCountOf (invs : List CertStoreInventory) : Nat :=
  invs.foldl
    (fun acc inv =>
      inv.Certificates.foldl
        (fun k _cert =>
          if paramLookup inv.Parameters "PrivateKeyEntry" == "Yes" then k + 1 else k)
        acc)
    0

/-- `isRootStore` of `rot.go`. The `st` argument of the Go function is
used only for log messages and is omitted. Parameter order follows the
source signature: `minCerts`, `maxKeys`, `maxLeaf`. -/
def isRootStore (invs : List CertStoreInventory) (minCerts maxKeys maxLeaf : Int) : Bool :=
  let leafCount := leafCountOf invs
  let keyCount := keyCountOf invs
  let certCount := certCountOf invs
  if (certCount : Int) < minCerts ∧ minCerts ≥ 0 then false
  else if (leafCount : Int) > maxLeaf ∧ maxLeaf ≥ 0 then false
  else if (keyCount : Int) > maxKeys ∧ maxKeys ≥ 0 then false
  else true

/-- Modelled from the spec: "keyCount = count of InventoryItems flagged as
containing a private key entry" (one per flagged item, independent of how
many certificate entries the item holds). Used to compare the source
computation against the specified one. -/
def specKeyCount (invs : List CertStoreInventory) : Nat :=
  (invs.filter (fun inv => paramLookup inv.Parameters "PrivateKeyEntry" == "Yes")).length

/-! ## Diff Engine: `generateAuditReport`

The Go function iterates `addCerts` and `removeCerts` (maps whose values
are thumbprints), resolves each thumbprint through
`kfClient.GetCertificateContext` (skipping the thumbprint on error), and
for each qualifying store emits one CSV row and, when a change is needed,
one `ROTAction` appended under `actions[cert]`. The client is modelled by
`lookup : String → Option CertCtx`, the clock `GetCurrentTime()` by the
`now` argument, and the rows written to `rot_audit.csv` coincide with the
rows collected in `data`, so a single row list models both. -/

/-- One (certificate, store) step of the add pass: the row literals and
the optional action, exactly as built on the two branches of
`if _, ok := store.Thumbprints[cert]; ok`. -/
def addPassPair (now cert : String) (certLookup : CertCtx) (store : StoreCSVEntry) :
    List String × Option ROTAction :=
  if store.Thumbprints.contains cert then
    ([cert, toString certLookup.Id, certLookup.IssuedDN, certLookup.IssuerDN,
      store.ID, store.type_, store.Machine, store.Path, "false", "false", "true", now],
     none)
  else
    ([cert, toString certLookup.Id, certLookup.IssuedDN, certLookup.IssuerDN,
      store.ID, store.type_, store.Machine, store.Path, "true", "false", "false", now],
     some { Thumbprint := cert, CertID := certLookup.Id, StoreID := store.ID,
            StoreType := store.type_, StorePath := store.Path,
            AddCert := true, RemoveCert := false })

/-- One (certificate, store) step of the remove pass. Note the row
literals of the source: both branches build a nine-element row
`{cert, certIDStr, store.ID, store.Type, store.Machine, store.Path, addFlag,
removeFlag, deployedFlag}` with no SubjectName, Issuer or AuditDate
columns. -/
def removePassPair (cert : String) (certLookup : CertCtx) (store : StoreCSVEntry) :
    List String × Option ROTAction :=
  if store.Thumbprints.contains cert then
    ([cert, toString certLookup.Id, store.ID, store.type_, store.Machine, store.Path,
      "false", "true", "true"],
     some { Thumbprint := cert, CertID := certLookup.Id, StoreID := store.ID,
            StoreType := store.type_, StorePath := store.Path,
            AddCert := false, RemoveCert := true })
  else
    ([cert, toString certLookup.Id, store.ID, store.type_, store.Machine, store.Path,
      "false", "false", "false"],
     none)

/-- The add pass of `generateAuditReport`: for each thumbprint, a failed
`GetCertificateContext` lookup logs and `continue`s (no rows, no actions);
otherwise one row per store and an action for each store the certificate
is missing from. -/
def addPass (lookup : String → Option CertCtx) (now : String)
    (stores : List StoreCSVEntry) : List String → List (List String) × List ROTAction
  | [] => ([], [])
  | cert :: rest =>
    let tailRes := addPass lookup now stores rest
    match lookup cert with
    | none => tailRes
    | some ctx =>
      (stores.map (fun s => (addPassPair now cert ctx s).1) ++ tailRes.1,
       stores.filterMap (fun s => (addPassPair now cert ctx s).2) ++ tailRes.2)

/-- The remove pass of `generateAuditReport`, analogous to `addPass`. -/
def removePass (lookup : String → Option CertCtx)
    (stores : List StoreCSVEntry) : List String → List (List String) × List ROTAction
  | [] => ([], [])
  | cert :: rest =>
    let tailRes := removePass lookup stores rest
    match lookup cert with
    | none => tailRes
    | some ctx =>
      (stores.map (fun s => (removePassPair cert ctx s).1) ++ tailRes.1,
       stores.filterMap (fun s => (removePassPair cert ctx s).2) ++ tailRes.2)

/-- `generateAuditReport` of `rot.go`: the returned `data` (header row
followed by the add-pass rows then the remove-pass rows, identical to
what is written to `rot_audit.csv`) and the emitted actions. The Go
`map[string][]ROTAction` keyed by thumbprint is recovered from the flat
action list by `actionsFor`, since every action appended under key `cert`
has `Thumbprint = cert` and per-key insertion order equals emission
order. -/
def generateAuditReport (addCerts removeCerts : List String)
    (stores : List StoreCSVEntry) (lookup : String → Option CertCtx) (now : String) :
    List (List String) × List ROTAction :=
  let addRes := addPass lookup now stores addCerts
  let removeRes := removePass lookup stores removeCerts
  (AuditHeader :: (addRes.1 ++ removeRes.1), addRes.2 ++ removeRes.2)

/-- The view of a flat action list as the Go actions map: the ordered
list bound to a given thumbprint key. -/
def actionsFor (acts : List ROTAction) (t : String) : List ROTAction :=
  acts.filter (fun a => a.Thumbprint == t)

/-! ## Reconciler: `reconcileRoots` -/

/-- A state-mutating Keyfactor API call issued by `reconcileRoots`:
`AddCertificateToStores` (certificate id, store id, overwrite, immediate)
or `RemoveCertificateFromStores` (certificate id, store id,
thumbprint-as-alias, immediate). -/
inductive KfCall where
  | addToStores (CertificateId : Int) (CertificateStoreId : String)
  | removeFromStores (CertificateId : Int) (CertificateStoreId : String) (Alias : String)
deriving DecidableEq, Repr

/-- The body of the inner action loop of `reconcileRoots`: an `AddCert`
action issues `AddCertificateToStores` unless `dryRun`, a `RemoveCert`
action issues `RemoveCertificateFromStores` unless `dryRun`, and a
flagless action matches neither branch. A `false` (error) response from
the client only prints and `continue`s, so it affects nothing the
function returns. -/
def reconcileAction (client : KfCall → Bool) (dryRun : Bool)
    (calls : List KfCall) (a : ROTAction) : List KfCall :=
  if a.AddCert then
    if !dryRun then
      let c := KfCall.addToStores a.CertID a.StoreID
      let _err := client c
      calls ++ [c]
    else calls
  else if a.RemoveCert then
    if !dryRun then
      let c := KfCall.removeFromStores a.CertID a.StoreID a.Thumbprint
      let _err := client c
      calls ++ [c]
    else calls
  else calls

/-- The loop over one actions-map entry (`for _, a := range action`). -/
def reconcileEntry (client : KfCall → Bool) (dryRun : Bool)
    (calls : List KfCall) (entry : String × List ROTAction) : List KfCall :=
  entry.2.foldl (reconcileAction client dryRun) calls

/-- `reconcileRoots` of `rot.go`. The actions map is a list of
(thumbprint, action list) entries; `client` models the API client,
returning `true` for success and `false` for an error response. The
result records, in order, every state-mutating call issued, paired with
the returned `error` value, which the source makes `nil` on every path
(failed calls only print and `continue`). -/
def reconcileRoots (actions : List (String × List ROTAction))
    (client : KfCall → Bool) (dryRun : Bool) : List KfCall × Option String :=
  if actions.length == 0 then
    ([], none)
  else
    (actions.foldl (reconcileEntry client dryRun) [], none)

/-! ## Ledger read path: the `--import-csv` branch of `rotReconcileCmd`

The file is read whole by `csv.NewReader(csvFile).ReadAll()`; with the
default `FieldsPerRecord = 0` the Go reader takes the first record as the
required field count and errors on any record of a different length
(`readAllFieldCheck`). The loop then skips a case-insensitive header
match, aborts via `log.Fatalf` on a data row seen before a valid header,
and otherwise rebuilds an action from a dynamic field map: every field
that `strconv.Atoi` accepts is stored as an `int`, everything else as a
`string`, after which `action[name].(type)` assertions read the columns
back. A failed assertion (wrong dynamic type, or a column missing from a
short row) panics and kills the process, modelled as `Except.error`. -/

/-- `strconv.Atoi`: an optional single `+` or `-` sign followed by one or
more decimal digits, nothing else (64-bit overflow is not modelled; all
values in this development are small). -/
def atoi (s : String) : Option Int :=
  let withSign :=
    match s.data with
    | '-' :: rest => (true, rest)
    | '+' :: rest => (false, rest)
    | chars => (false, chars)
  if withSign.2.isEmpty || !(withSign.2.all Char.isDigit) then none
  else
    let n : Nat := withSign.2.foldl (fun acc d => acc * 10 + (d.toNat - '0'.toNat)) 0
    some (if withSign.1 then -(n : Int) else (n : Int))

/-- `strconv.ParseBool`: the exact accepted literals of the Go standard
library; anything else is a parse error. -/
def parseBool (s : String) : Option Bool :=
  if s == "1" || s == "t" || s == "T" || s == "TRUE" || s == "true" || s == "True" then
    some true
  else if s == "0" || s == "f" || s == "F" || s == "FALSE" || s == "false" || s == "False" then
    some false
  else none

/-- The dynamic value stored in the `action` field map: `int` when
`strconv.Atoi` succeeded on the field, `string` otherwise. -/
inductive FieldVal where
  | str (s : String)
  | int (n : Int)
deriving DecidableEq, Repr

/-- The per-field step of the import loop: `strconv.Atoi(field)` decides
whether the field map holds an `int` or the raw `string`. -/
def parseField (s : String) : FieldVal :=
  match atoi s with
  | some n => FieldVal.int n
  | none => FieldVal.str s

/-- Read the field map at the column name sitting at header index `i`
(`fieldMap` maps each index of `AuditHeader` to its column name, and the
loop stores `action[fieldMap[i]] = parseField row[i]`); a key absent
because the row is shorter than the header yields `none`. -/
def fieldAt (row : List String) (i : Nat) : Option FieldVal :=
  (row.get? i).map parseField

/-- A Go type assertion `v.(string)` on a field-map value: succeeds only
on a present `string` entry, otherwise the process panics (`none`). -/
def asStr : Option FieldVal → Option String
  | some (FieldVal.str s) => some s
  | _ => none

/-- A Go type assertion `v.(int)` on a field-map value. -/
def asInt : Option FieldVal → Option Int
  | some (FieldVal.int n) => some n
  | _ => none

/-- Rebuild one `ROTAction` from a data row, following the source order
of reads: `action["AddCert"].(string)` and `action["RemoveCert"].(string)`
are read first (their `strconv.ParseBool` errors are discarded, leaving
the zero value `false`), then the struct literal asserts `StoreID`,
`StoreType`, `Path`, `Thumbprint` as strings and `CertID` as an int.
`none` models the panic that aborts the whole load. -/
def rowToAction (row : List String) : Option ROTAction := do
  let addS ← asStr (fieldAt row 8)
  let remS ← asStr (fieldAt row 9)
  let sid ← asStr (fieldAt row 4)
  let sty ← asStr (fieldAt row 5)
  let spath ← asStr (fieldAt row 7)
  let th ← asStr (fieldAt row 0)
  let cid ← asInt (fieldAt row 1)
  pure { StoreID := sid, StoreType := sty, StorePath := spath, Thumbprint := th,
         CertID := cid,
         AddCert := (parseBool addS).getD false,
         RemoveCert := (parseBool remS).getD false }

/-- `strings.EqualFold` restricted to ASCII data (all header constants
are ASCII): case-insensitive equality via character-wise lower-casing. -/
def equalFold (s t : String) : Bool :=
  s.data.map Char.toLower == t.data.map Char.toLower

/-- The header test of the import loop:
`strings.EqualFold(strings.Join(row, ","), strings.Join(AuditHeader, ","))`. -/
def isAuditHeaderRow (row : List String) : Bool :=
  equalFold (String.intercalate "," row) (String.intercalate "," AuditHeader)

/-- The row loop of the `--import-csv` branch, threading the
`validHeader` flag: a header match is skipped, a data row before a valid
header hits `log.Fatalf`, a row the field map cannot rebuild panics, and
every other row appends its action. -/
def loadActionsFrom (validHeader : Bool) :
    List (List String) → Except String (List ROTAction)
  | [] => Except.ok []
  | row :: rest =>
    if isAuditHeaderRow row then loadActionsFrom true rest
    else if !validHeader then Except.error "Stores CSV file is missing a valid header"
    else
      match rowToAction row with
      | none => Except.error "row cannot be mapped to the action schema"
      | some a =>
        match loadActionsFrom validHeader rest with
        | Except.error e => Except.error e
        | Except.ok tail => Except.ok (a :: tail)

/-- Go `encoding/csv` `ReadAll` with the default `FieldsPerRecord = 0`:
the first record fixes the required field count and any later record of a
different length fails the whole read. -/
def readAllFieldCheck : List (List String) → Except String (List (List String))
  | [] => Except.ok []
  | first :: rest =>
    if rest.all (fun r => r.length == first.length) then Except.ok (first :: rest)
    else Except.error "wrong number of fields"

/-- The whole `reconcile --import-csv` load path: `ReadAll` the records,
then run the row loop with `validHeader` initially `false`. -/
def loadAuditReport (records : List (List String)) : Except String (List ROTAction) :=
  match readAllFieldCheck records with
  | Except.error e => Except.error e
  | Except.ok rows => loadActionsFrom false rows

/-! ## Store-reading loops of `rotAuditCmd` and `rotReconcileCmd`

Both commands read the stores CSV and turn each surviving entry into a
`StoreCSVEntry`, but they handle store-lookup failures differently: the
audit loop computes `append(lookupFailures, strings.Join(entry, ","))`
and assigns it to the blank identifier `_`, so the accumulator never
grows and the command prints no failure summary; the reconcile loop
accumulates properly but afterwards calls `log.Fatalf` whenever the list
is non-empty. `getStore` models `GetCertificateStoreByID` (`true` =
found) and `getInv` models `GetCertStoreInventory` (inventory-fetch
errors are only logged by the audit loop and are not modelled). -/

/-- The header test of the audit store loop:
`strings.EqualFold(strings.Join(entry, ","), strings.Join(StoreHeader, ","))`. -/
def isStoreHeaderRow (entry : List String) : Bool :=
  equalFold (String.intercalate "," entry) (String.intercalate "," StoreHeader)

/-- Build the `StoreCSVEntry` for a surviving entry: the first four CSV
columns plus the thumbprint/serial/id sets flattened from the inventory
(Go indexes `entry[0..3]` directly; rows shorter than four columns would
panic there and are not modelled). -/
def buildStoreEntry (entry : List String) (inventory : List CertStoreInventory) :
    StoreCSVEntry :=
  { ID := entry.getD 0 "", type_ := entry.getD 1 "", Machine := entry.getD 2 "",
    Path := entry.getD 3 "",
    Thumbprints := (inventory.map (fun inv => inv.Thumbprints)).flatten,
    Serials := (inventory.map (fun inv => inv.Serials)).flatten,
    Ids := (inventory.map (fun inv => inv.Ids)).flatten }

/-- The store-reading loop of `rotAuditCmd`, threading `validHeader`, the
collected stores and `lookupFailures`. The call site passes the flag
values in the source order `minCerts, maxLeaves, maxKeys`, which land in
the `isRootStore` parameters `minCerts, maxKeys, maxLeaf`. An invalid
header aborts via `log.Fatalf` (`Except.error`); a failed store lookup
computes the appended failure list but discards it, exactly as the
source's `_ = append(lookupFailures, strings.Join(entry, ","))` does. -/
def rotAuditStoreLoopGo (getStore : String → Bool)
    (getInv : String → List CertStoreInventory) (minCerts maxLeaves maxKeys : Int)
    (validHeader : Bool) (stores : List StoreCSVEntry) (lookupFailures : List String) :
    List (List String) → Except String (List StoreCSVEntry × List String)
  | [] => Except.ok (stores, lookupFailures)
  | entry :: rest =>
    if isStoreHeaderRow entry then
      rotAuditStoreLoopGo getStore getInv minCerts maxLeaves maxKeys true
        stores lookupFailures rest
    else if !validHeader then
      Except.error "Stores CSV file is missing a valid header"
    else if !(getStore (entry.getD 0 "")) then
      let _discarded := lookupFailures ++ [String.intercalate "," entry]
      rotAuditStoreLoopGo getStore getInv minCerts maxLeaves maxKeys validHeader
        stores lookupFailures rest
    else
      let inventory := getInv (entry.getD 0 "")
      if !(isRootStore inventory minCerts maxLeaves maxKeys) then
        rotAuditStoreLoopGo getStore getInv minCerts maxLeaves maxKeys validHeader
          stores lookupFailures rest
      else
        rotAuditStoreLoopGo getStore getInv minCerts maxLeaves maxKeys validHeader
          (stores ++ [buildStoreEntry entry inventory]) lookupFailures rest

/-- The audit store loop started on fresh state. -/
def rotAuditStoreLoop (getStore : String → Bool)
    (getInv : String → List CertStoreInventory) (minCerts maxLeaves maxKeys : Int)
    (entries : List (List String)) : Except String (List StoreCSVEntry × List String) :=
  rotAuditStoreLoopGo getStore getInv minCerts maxLeaves maxKeys false [] [] entries

/-- The store-reading loop of the non-CSV branch of `rotReconcileCmd`:
the header is skipped when `entry[0]` is `StoreID`/`StoreId` or the row
index is zero, a failed store lookup appends `entry[0]` to
`lookupFailures` and continues, and classification uses the same
swapped-order call `isRootStore(inventory, minCerts, maxLeaves, maxKeys)`
as the audit loop. -/
def rotReconcileStoreLoopGo (getStore : String → Bool)
    (getInv : String → List CertStoreInventory) (minCerts maxLeaves maxKeys : Int)
    (i : Nat) (stores : List StoreCSVEntry) (lookupFailures : List String) :
    List (List String) → List StoreCSVEntry × List String
  | [] => (stores, lookupFailures)
  | entry :: rest =>
    if entry.getD 0 "" == "StoreID" || entry.getD 0 "" == "StoreId" || i == 0 then
      rotReconcileStoreLoopGo getStore getInv minCerts maxLeaves maxKeys (i + 1)
        stores lookupFailures rest
    else if !(getStore (entry.getD 0 "")) then
      rotReconcileStoreLoopGo getStore getInv minCerts maxLeaves maxKeys (i + 1)
        stores (lookupFailures ++ [entry.getD 0 ""]) rest
    else
      let inventory := getInv (entry.getD 0 "")
      if !(isRootStore inventory minCerts maxLeaves maxKeys) then
        rotReconcileStoreLoopGo getStore getInv minCerts maxLeaves maxKeys (i + 1)
          stores lookupFailures rest
      else
        rotReconcileStoreLoopGo getStore getInv minCerts maxLeaves maxKeys (i + 1)
          (stores ++ [buildStoreEntry entry inventory]) lookupFailures rest

/-- The stores phase of the non-CSV reconcile branch: run the loop, then
`log.Fatalf` (error) when any store lookup failed, then `log.Fatalf` when
no root store survived, otherwise hand the stores on. The later
`if lookupFailures != nil` summary print at the end of the branch is
unreachable with a non-empty list because this `log.Fatalf` exits
first. -/
def rotReconcileStoresPhase (getStore : String → Bool)
    (getInv : String → List CertStoreInventory) (minCerts maxLeaves maxKeys : Int)
    (entries : List (List String)) : Except String (List StoreCSVEntry) :=
  let looped := rotReconcileStoreLoopGo getStore getInv minCerts maxLeaves maxKeys
    0 [] [] entries
  if looped.2.length > 0 then
    Except.error ("Error the following stores were not found: "
      ++ String.intercalate "," looped.2)
  else if looped.1.length == 0 then
    Except.error "No root stores found. Exiting."
  else
    Except.ok looped.1

/-! ## Concrete fixtures used by the claim theorems -/

/-- A root store whose inventory already holds thumbprint `AB`. -/
def exStore : StoreCSVEntry :=
  { ID := "s1", type_ := "PEM", Machine := "m1", Path := "/p",
    Thumbprints := ["AB"], Serials := [], Ids := [] }

/-- A root store whose inventory is empty. -/
def exStoreEmpty : StoreCSVEntry :=
  { ID := "s2", type_ := "JKS", Machine := "m2", Path := "/q",
    Thumbprints := [], Serials := [], Ids := [] }

/-- The certificate record resolved for thumbprint `AB`. -/
def exCtx : CertCtx := { Id := 1, IssuedDN := "cn=r", IssuerDN := "cn=r" }

/-- A certificate resolver knowing only thumbprint `AB`. -/
def exLookup : String → Option CertCtx :=
  fun t => if t == "AB" then some exCtx else none

/-- The remove action the diff engine emits for `AB` against `exStore`. -/
def exRemoveAction : ROTAction :=
  { StoreID := "s1", StoreType := "PEM", StorePath := "/p", Thumbprint := "AB",
    CertID := 1, AddCert := false, RemoveCert := true }

/-- The flagless action the import path builds from a no-op add row of
`exStore` (and from `c8BadBoolRow`). -/
def exLoadedNoopAction : ROTAction :=
  { StoreID := "s1", StoreType := "PEM", StorePath := "/p", Thumbprint := "AB",
    CertID := 1, AddCert := false, RemoveCert := false }

/-! ## General helper lemmas -/

/-- A fold whose step never changes the accumulator returns it. -/
theorem foldl_fixed_of_step_id {α β : Type} (f : α → β → α)
    (h : ∀ x y, f x y = x) (init : α) (l : List β) : l.foldl f init = init := by
  induction l generalizing init with
  | nil => rfl
  | cons b bs ih => rw [List.foldl_cons, h, ih]

/-! ## C3 and C10: `reconcileRoots` -/

theorem reconcileAction_dryRun (client : KfCall → Bool) (calls : List KfCall)
    (a : ROTAction) : reconcileAction client true calls a = calls := by
  unfold reconcileAction
  cases a.AddCert <;> cases a.RemoveCert <;> simp

/-- C3: with `dryRun = true`, `reconcileRoots` issues zero
`AddCertificateToStores` / `RemoveCertificateFromStores` calls, for every
actions map and every client behavior. -/
theorem reconcileRoots_dryRun_no_calls (actions : List (String × List ROTAction))
    (client : KfCall → Bool) : (reconcileRoots actions client true).1 = [] := by
  unfold reconcileRoots
  split
  · rfl
  · refine congrArg Prod.fst (congrArg (fun x => (x, (none : Option String))) ?_)
    refine foldl_fixed_of_step_id _ (fun calls entry => ?_) [] actions
    unfold reconcileEntry
    exact foldl_fixed_of_step_id _ (reconcileAction_dryRun client) calls entry.2

/-- C10: `reconcileRoots` returns a nil error on every input — for every
actions map, every client behavior (including one where every call
fails), and both dry-run settings — and the sequence of calls it issues
does not depend on the client responses, so processing always continues
with the next action. -/
theorem reconcileRoots_always_nil_error (actions : List (String × List ROTAction))
    (client client' : KfCall → Bool) (dryRun : Bool) :
    (reconcileRoots actions client dryRun).2 = none
    ∧ (reconcileRoots actions client dryRun).1
        = (reconcileRoots actions client' dryRun).1 := by
  constructor
  · unfold reconcileRoots
    split <;> rfl
  · have hact : reconcileAction client dryRun = reconcileAction client' dryRun := rfl
    unfold reconcileRoots
    split
    · rfl
    · unfold reconcileEntry
      rw [hact]

/-! ## C5: the `-1` sentinel only weakens classification -/

theorem isRootStore_eq_true_iff (invs : List CertStoreInventory) (mc mk ml : Int) :
    isRootStore invs mc mk ml = true ↔
      ¬((certCountOf invs : Int) < mc ∧ mc ≥ 0) ∧
      ¬((leafCountOf invs : Int) > ml ∧ ml ≥ 0) ∧
      ¬((keyCountOf invs : Int) > mk ∧ mk ≥ 0) := by
  unfold isRootStore
  dsimp only
  split_ifs with h1 h2 h3 <;> simp_all

/-- C5: `isRootStore` is a pure function of its arguments (it is defined
here as a Lean function, and the Go body reads nothing but its
parameters), and replacing any single threshold by the sentinel `-1`
never turns an accepted inventory into a rejected one: each threshold's
rejection branch is guarded by `threshold >= 0`. -/
theorem isRootStore_sentinel_weakens (invs : List CertStoreInventory)
    (minCerts maxKeys maxLeaf : Int) :
    (isRootStore invs minCerts maxKeys maxLeaf = true →
      isRootStore invs (-1) maxKeys maxLeaf = true)
    ∧ (isRootStore invs minCerts maxKeys maxLeaf = true →
      isRootStore invs minCerts (-1) maxLeaf = true)
    ∧ (isRootStore invs minCerts maxKeys maxLeaf = true →
      isRootStore invs minCerts maxKeys (-1) = true) := by
  refine ⟨fun h => ?_, fun h => ?_, fun h => ?_⟩ <;>
    rw [isRootStore_eq_true_iff] at h ⊢ <;>
    exact ⟨by omega, by omega, by omega⟩

/-- Witness for the C5 theorem at the empty inventory with all
thresholds zero. -/
theorem isRootStore_sentinel_weakens_witness :
    isRootStore [] (-1) 0 0 = true ∧ isRootStore [] 0 (-1) 0 = true
      ∧ isRootStore [] 0 0 (-1) = true :=
  ⟨(isRootStore_sentinel_weakens [] 0 0 0).1 rfl,
   (isRootStore_sentinel_weakens [] 0 0 0).2.1 rfl,
   (isRootStore_sentinel_weakens [] 0 0 0).2.2 rfl⟩

/-! ## C4: what `keyCount` actually counts -/

/-- A single inventory item flagged `PrivateKeyEntry = Yes` holding two
certificate entries. -/
def c4Item : CertStoreInventory :=
  { Certificates := [{ IssuedDN := "cn=r", IssuerDN := "cn=r" },
                     { IssuedDN := "cn=r", IssuerDN := "cn=r" }],
    Parameters := [("PrivateKeyEntry", "Yes")],
    Thumbprints := [], Serials := [], Ids := [] }

/-- C4 counterexample: on an inventory holding one private-key-flagged
item with two certificate entries, the source computes `keyCount = 2`
while the claimed per-item count is `1`, so the flagged item does not
contribute exactly 1 independent of its certificate entries. -/
theorem keyCount_counts_per_certificate :
    keyCountOf [c4Item] = 2 ∧ specKeyCount [c4Item] = 1 := ⟨rfl, rfl⟩

/-- A constant-condition count over a certificate list starting from an
accumulator. -/
theorem foldl_count_const (b : Bool) (certs : List InvCert) (acc : Nat) :
    certs.foldl (fun k _cert => if b then k + 1 else k) acc
      = acc + (if b then certs.length else 0) := by
  induction certs generalizing acc with
  | nil => simp
  | cons c cs ih =>
    rw [List.foldl_cons, ih]
    cases b
    · simp
    · simp
      omega

/-- The `keyCount` fold with a generalized accumulator. -/
theorem keyCountOf_go (invs : List CertStoreInventory) (acc : Nat) :
    invs.foldl
      (fun a inv =>
        inv.Certificates.foldl
          (fun k _cert =>
            if paramLookup inv.Parameters "PrivateKeyEntry" == "Yes" then k + 1 else k)
          a)
      acc
    = acc + (invs.map (fun inv =>
        if paramLookup inv.Parameters "PrivateKeyEntry" == "Yes"
        then inv.Certificates.length else 0)).sum := by
  induction invs generalizing acc with
  | nil => simp
  | cons inv invs ih =>
    rw [List.foldl_cons,
      foldl_count_const (paramLookup inv.Parameters "PrivateKeyEntry" == "Yes"),
      ih, List.map_cons, List.sum_cons, Nat.add_assoc]

/-- C4 amended: `keyCount` equals the sum, over the inventory items
flagged as containing a private key entry, of the number of certificate
entries the item holds — each flagged item contributes once per
certificate entry (so a flagged item with no certificate entries
contributes 0), not exactly 1. -/
theorem keyCountOf_eq_sum_flagged (invs : List CertStoreInventory) :
    keyCountOf invs
      = (invs.map (fun inv =>
          if paramLookup inv.Parameters "PrivateKeyEntry" == "Yes"
          then inv.Certificates.length else 0)).sum := by
  unfold keyCountOf
  rw [keyCountOf_go, Nat.zero_add]

/-! ## C6: flag exclusivity and the action-iff-flag invariant -/

/-- Read a row column at a header position, `""` when the row is too
short (the remove-pass rows have no column 9 at all). -/
def flagAt (row : List String) (i : Nat) : String :=
  (row.get? i).getD ""

theorem addPassPair_row_flags_exclusive (now cert : String) (ctx : CertCtx)
    (store : StoreCSVEntry) :
    (flagAt (addPassPair now cert ctx store).1 8 == "true"
      && flagAt (addPassPair now cert ctx store).1 9 == "true") = false := by
  unfold addPassPair
  cases h : store.Thumbprints.contains cert <;> simp [h, flagAt]

theorem removePassPair_row_flags_exclusive (cert : String) (ctx : CertCtx)
    (store : StoreCSVEntry) :
    (flagAt (removePassPair cert ctx store).1 8 == "true"
      && flagAt (removePassPair cert ctx store).1 9 == "true") = false := by
  unfold removePassPair
  cases h : store.Thumbprints.contains cert <;> simp [h, flagAt]

theorem addPass_row_flags_exclusive (lookup : String → Option CertCtx)
    (now : String) (stores : List StoreCSVEntry) (certs : List String) (row : List String)
    (hmem : row ∈ (addPass lookup now stores certs).1) :
    (flagAt row 8 == "true" && flagAt row 9 == "true") = false := by
  induction certs with
  | nil => simp [addPass] at hmem
  | cons c cs ih =>
    rw [addPass] at hmem
    cases h : lookup c with
    | none =>
      rw [h] at hmem
      exact ih hmem
    | some ctx =>
      rw [h] at hmem
      rcases List.mem_append.mp hmem with hl | hr
      · rcases List.mem_map.mp hl with ⟨s, _, hrow⟩
        rw [← hrow]
        exact addPassPair_row_flags_exclusive now c ctx s
      · exact ih hr

theorem removePass_row_flags_exclusive (lookup : String → Option CertCtx)
    (stores : List StoreCSVEntry) (certs : List String) (row : List String)
    (hmem : row ∈ (removePass lookup stores certs).1) :
    (flagAt row 8 == "true" && flagAt row 9 == "true") = false := by
  induction certs with
  | nil => simp [removePass] at hmem
  | cons c cs ih =>
    rw [removePass] at hmem
    cases h : lookup c with
    | none =>
      rw [h] at hmem
      exact ih hmem
    | some ctx =>
      rw [h] at hmem
      rcases List.mem_append.mp hmem with hl | hr
      · rcases List.mem_map.mp hl with ⟨s, _, hrow⟩
        rw [← hrow]
        exact removePassPair_row_flags_exclusive c ctx s
      · exact ih hr

theorem addPass_action_flags_exclusive (lookup : String → Option CertCtx)
    (now : String) (stores : List StoreCSVEntry) (certs : List String) (a : ROTAction)
    (hmem : a ∈ (addPass lookup now stores certs).2) :
    (a.AddCert && a.RemoveCert) = false := by
  induction certs with
  | nil => simp [addPass] at hmem
  | cons c cs ih =>
    rw [addPass] at hmem
    cases h : lookup c with
    | none =>
      rw [h] at hmem
      exact ih hmem
    | some ctx =>
      rw [h] at hmem
      rcases List.mem_append.mp hmem with hl | hr
      · rcases List.mem_filterMap.mp hl with ⟨s, _, hact⟩
        unfold addPassPair at hact
        rcases hcont : s.Thumbprints.contains c <;> rw [hcont] at hact <;>
          simp at hact
        rw [← hact]
        rfl
      · exact ih hr

theorem removePass_action_flags_exclusive (lookup : String → Option CertCtx)
    (stores : List StoreCSVEntry) (certs : List String) (a : ROTAction)
    (hmem : a ∈ (removePass lookup stores certs).2) :
    (a.AddCert && a.RemoveCert) = false := by
  induction certs with
  | nil => simp [removePass] at hmem
  | cons c cs ih =>
    rw [removePass] at hmem
    cases h : lookup c with
    | none =>
      rw [h] at hmem
      exact ih hmem
    | some ctx =>
      rw [h] at hmem
      rcases List.mem_append.mp hmem with hl | hr
      · rcases List.mem_filterMap.mp hl with ⟨s, _, hact⟩
        unfold removePassPair at hact
        rcases hcont : s.Thumbprints.contains c <;> rw [hcont] at hact <;>
          simp at hact
        rw [← hact]
        rfl
      · exact ih hr

/-- C6: over any audit run, no emitted row (header included) carries
`true` in both the AddCert column (position 8) and the RemoveCert column
(position 9), no emitted action carries both flags, and for each
(certificate, store) pair an action is produced exactly when the pair's
row carries a `true` add or remove flag literal — at positions 8/9 for
the twelve-column add-pass rows and at positions 6/7 (where the source
writes the add/remove literals) for the nine-column remove-pass rows. -/
theorem auditRows_flags_exclusive_action_iff
    (addCerts removeCerts : List String) (stores : List StoreCSVEntry)
    (lookup : String → Option CertCtx) (now cert : String) (ctx : CertCtx)
    (store : StoreCSVEntry) :
    (∀ row ∈ (generateAuditReport addCerts removeCerts stores lookup now).1,
        (flagAt row 8 == "true" && flagAt row 9 == "true") = false)
    ∧ (∀ a ∈ (generateAuditReport addCerts removeCerts stores lookup now).2,
        (a.AddCert && a.RemoveCert) = false)
    ∧ (addPassPair now cert ctx store).2.isSome
        = (flagAt (addPassPair now cert ctx store).1 8 == "true"
           || flagAt (addPassPair now cert ctx store).1 9 == "true")
    ∧ (removePassPair cert ctx store).2.isSome
        = (flagAt (removePassPair cert ctx store).1 6 == "true"
           || flagAt (removePassPair cert ctx store).1 7 == "true") := by
  refine ⟨fun row hmem => ?_, fun a hmem => ?_, ?_, ?_⟩
  · unfold generateAuditReport at hmem
    rcases List.mem_cons.mp hmem with hhdr | hbody
    · rw [hhdr]
      rfl
    · rcases List.mem_append.mp hbody with hl | hr
      · exact addPass_row_flags_exclusive lookup now stores addCerts row hl
      · exact removePass_row_flags_exclusive lookup stores removeCerts row hr
  · unfold generateAuditReport at hmem
    rcases List.mem_append.mp hmem with hl | hr
    · exact addPass_action_flags_exclusive lookup now stores addCerts a hl
    · exact removePass_action_flags_exclusive lookup stores removeCerts a hr
  · unfold addPassPair
    cases h : store.Thumbprints.contains cert <;> simp [h, flagAt]
  · unfold removePassPair
    cases h : store.Thumbprints.contains cert <;> simp [h, flagAt]

/-- Witness for the C6 theorem on a concrete run: a remove run of `AB`
against `exStore` whose single data row is the nine-column remove row,
and its single action, instantiated from the theorem. -/
theorem auditRows_flags_exclusive_action_iff_witness :
    (flagAt ["AB", "1", "s1", "PEM", "m1", "/p", "false", "true", "true"] 8 == "true"
      && flagAt ["AB", "1", "s1", "PEM", "m1", "/p", "false", "true", "true"] 9 == "true")
      = false
    ∧ (exRemoveAction.AddCert && exRemoveAction.RemoveCert) = false :=
  ⟨(auditRows_flags_exclusive_action_iff [] ["AB"] [exStore] exLookup "d1" "AB" exCtx
      exStore).1 ["AB", "1", "s1", "PEM", "m1", "/p", "false", "true", "true"] (by decide),
   (auditRows_flags_exclusive_action_iff [] ["AB"] [exStore] exLookup "d1" "AB" exCtx
      exStore).2.1 exRemoveAction (by decide)⟩

/-! ## C7: completeness of the emitted row set -/

theorem addPass_rows_length (lookup : String → Option CertCtx) (now : String)
    (stores : List StoreCSVEntry) (certs : List String) :
    (addPass lookup now stores certs).1.length
      = stores.length * (certs.filter (fun c => (lookup c).isSome)).length := by
  induction certs with
  | nil => simp [addPass]
  | cons c cs ih =>
    rw [addPass]
    cases h : lookup c with
    | none => simp [h, ih]
    | some ctx =>
      simp only [h, List.length_append, List.length_map, ih, List.filter_cons, h,
        Option.isSome_some, if_pos, List.length_cons, Nat.mul_succ]
      omega

theorem removePass_rows_length (lookup : String → Option CertCtx)
    (stores : List StoreCSVEntry) (certs : List String) :
    (removePass lookup stores certs).1.length
      = stores.length * (certs.filter (fun c => (lookup c).isSome)).length := by
  induction certs with
  | nil => simp [removePass]
  | cons c cs ih =>
    rw [removePass]
    cases h : lookup c with
    | none => simp [h, ih]
    | some ctx =>
      simp only [h, List.length_append, List.length_map, ih, List.filter_cons, h,
        Option.isSome_some, if_pos, List.length_cons, Nat.mul_succ]
      omega

/-- Resolved and unresolved thumbprints partition a certificate list. -/
theorem filter_some_none_partition (lookup : String → Option CertCtx)
    (certs : List String) :
    (certs.filter (fun c => (lookup c).isSome)).length
      + (certs.filter (fun c => (lookup c).isNone)).length = certs.length := by
  induction certs with
  | nil => rfl
  | cons c cs ih =>
    cases h : lookup c <;> simp [List.filter_cons, h] <;> omega

/-- The arithmetic core of C7 over truncated Nat subtraction. -/
theorem c7_count_arith (S okA fA okR fR : Nat) :
    1 + S * okA + S * okR
      = 1 + (S * ((okA + fA) + (okR + fR)) - S * (fA + fR)) := by
  have hsplit : S * ((okA + fA) + (okR + fR)) = (S * okA + S * okR) + S * (fA + fR) := by
    ring
  rw [hsplit, Nat.add_sub_cancel]
  omega

/-- C7: the report holds the header plus exactly one row per (resolved
thumbprint, qualifying store) pair: `|stores| * (|addList| + |removeList|)`
rows minus `|stores|` rows for each thumbprint whose certificate
resolution failed, which contributes no row (and no action) to the run. -/
theorem generateAuditReport_row_count (addCerts removeCerts : List String)
    (stores : List StoreCSVEntry) (lookup : String → Option CertCtx) (now : String) :
    ((generateAuditReport addCerts removeCerts stores lookup now).1).length
      = 1 + (stores.length * (addCerts.length + removeCerts.length)
          - stores.length * ((addCerts.filter (fun c => (lookup c).isNone)).length
              + (removeCerts.filter (fun c => (lookup c).isNone)).length)) := by
  have hA := filter_some_none_partition lookup addCerts
  have hR := filter_some_none_partition lookup removeCerts
  have hbase : ((generateAuditReport addCerts removeCerts stores lookup now).1).length
      = 1 + stores.length * (addCerts.filter (fun c => (lookup c).isSome)).length
          + stores.length * (removeCerts.filter (fun c => (lookup c).isSome)).length := by
    unfold generateAuditReport
    simp only [List.length_cons, List.length_append, addPass_rows_length,
      removePass_rows_length]
    omega
  rw [hbase, ← hA, ← hR]
  exact c7_count_arith stores.length
    (addCerts.filter (fun c => (lookup c).isSome)).length
    (addCerts.filter (fun c => (lookup c).isNone)).length
    (removeCerts.filter (fun c => (lookup c).isSome)).length
    (removeCerts.filter (fun c => (lookup c).isNone)).length

/-! ## C1 and C2: the written ledger versus its own read path -/

/-- C1 evidence: the audit ledger the diff engine writes does not round
trip through the `reconcile --import-csv` read path. A remove run emits
the action list `[exRemoveAction]` but writes a nine-column row under the
twelve-column header, so reading the file back fails the csv field-count
check before any action is rebuilt; and a no-op add run (certificate
already deployed) emits no action at all, yet its written ledger loads
back as one flagless action, so the loaded map is not the diff-engine map
restricted to non-no-op rows. -/
theorem auditReport_roundTrip_fails :
    (generateAuditReport [] ["AB"] [exStore] exLookup "d1").2 = [exRemoveAction]
    ∧ loadAuditReport (generateAuditReport [] ["AB"] [exStore] exLookup "d1").1
        = Except.error "wrong number of fields"
    ∧ (generateAuditReport ["AB"] [] [exStore] exLookup "d1").2 = []
    ∧ loadAuditReport (generateAuditReport ["AB"] [] [exStore] exLookup "d1").1
        = Except.ok [exLoadedNoopAction] :=
  ⟨rfl, rfl, rfl, rfl⟩

/-- C2 evidence: add-pass rows match the twelve-column header, but every
remove-pass row — deployed or not — has only nine columns (SubjectName,
Issuer and AuditDate are missing), contradicting the fixed twelve-column
schema the same function writes as its header. -/
theorem auditRow_column_counts :
    ((generateAuditReport ["AB"] [] [exStore, exStoreEmpty] exLookup "d1").1).map
        List.length = [12, 12, 12]
    ∧ ((generateAuditReport [] ["AB"] [exStore, exStoreEmpty] exLookup "d1").1).map
        List.length = [12, 9, 9]
    ∧ AuditHeader.length = 12 :=
  ⟨rfl, rfl, rfl⟩

/-! ## C8: what does and does not fail the import -/

/-- A data row whose AddCert and RemoveCert columns are not parseable as
booleans but whose other columns fit the schema. -/
def c8BadBoolRow : List String :=
  ["AB", "1", "cn=s", "cn=i", "s1", "PEM", "m1", "/p", "bogus", "maybe", "true", "d1"]

/-- C8 counterexample: a data row whose boolean columns cannot be parsed
does not fail the load — `strconv.ParseBool` errors are discarded and the
row loads with both flags `false`. -/
theorem load_accepts_unparseable_bools :
    loadAuditReport [AuditHeader, c8BadBoolRow] = Except.ok [exLoadedNoopAction]
    ∧ parseBool "bogus" = none ∧ parseBool "maybe" = none :=
  ⟨rfl, rfl, rfl⟩

/-- C8 amended: a data row before a case-insensitively matching header
fails the whole load, and a row whose columns cannot be mapped to the
schema by the dynamic field map (CertID not an integer, a missing column,
or a string-schema column holding an integer-parsable value) aborts the
whole load; but AddCert/RemoveCert values that fail boolean parsing are
silently read as `false` and do not fail the load. -/
theorem load_fail_fast_and_bool_default :
    (∀ row rest, isAuditHeaderRow row = false →
        loadActionsFrom false (row :: rest)
          = Except.error "Stores CSV file is missing a valid header")
    ∧ (∀ row rest, isAuditHeaderRow row = false → rowToAction row = none →
        loadActionsFrom true (row :: rest)
          = Except.error "row cannot be mapped to the action schema")
    ∧ rowToAction c8BadBoolRow = some exLoadedNoopAction := by
  refine ⟨fun row rest h => ?_, fun row rest h h2 => ?_, rfl⟩
  · rw [loadActionsFrom, if_neg (by simp [h]), if_pos (by simp)]
  · rw [loadActionsFrom, if_neg (by simp [h]), if_neg (by simp), h2]

/-- Witness for the amended C8 theorem at one-column rows. -/
theorem load_fail_fast_and_bool_default_witness :
    loadActionsFrom false [["AB"]]
        = Except.error "Stores CSV file is missing a valid header"
    ∧ loadActionsFrom true [["AB"]]
        = Except.error "row cannot be mapped to the action schema" :=
  ⟨load_fail_fast_and_bool_default.1 ["AB"] [] rfl,
   load_fail_fast_and_bool_default.2.1 ["AB"] [] rfl rfl⟩

/-! ## C9: lookup failures are dropped by audit and fatal to reconcile -/

/-- A stores file with a valid header and one store entry `s1`. -/
def c9Entries : List (List String) :=
  [StoreHeader, ["s1", "PEM", "m1", "/p", "1", "c", "d"]]

/-- C9 evidence: with a client for which every store lookup fails, the
audit store loop finishes without error but its `lookupFailures`
accumulator is still empty — the appended list is assigned to the blank
identifier and the command prints no summary — while the reconcile
stores phase aborts fatally with the failure list instead of continuing
the run. -/
theorem lookup_failures_dropped_or_fatal :
    rotAuditStoreLoop (fun _ => false) (fun _ => []) (-1) (-1) (-1) c9Entries
      = Except.ok ([], [])
    ∧ rotReconcileStoresPhase (fun _ => false) (fun _ => []) (-1) (-1) (-1) c9Entries
      = Except.error "Error the following stores were not found: s1" :=
  ⟨rfl, rfl⟩

end Kfutil
